import Mathlib

/-!
# Verification of the meting-transcriber audio capture core

Shallow embedding of `src/audio_capture.py` (classes `DeviceStream` and
`AudioCapture`).  Audio samples are modelled as exact rationals (`ℚ`); the
Python code works on float32, but every property checked here is about
lengths, windowing, control flow and counter updates, none of which depend
on rounding of sample values.

External library calls (`scipy.signal.decimate`, `scipy.signal.resample_poly`)
are modelled by their documented length behaviour: both are a length-preserving
filter followed by index selection.  The filter kernels are abstracted (the
claims under check never inspect filtered sample values), while output lengths
match scipy exactly: `decimate` emits every `q`-th sample of the filtered
signal (`ceil (L / q)` samples) and `resample_poly` emits
`ceil (L * up / down)` samples.
-/

namespace AudioCapture

/-- Python's `round` (banker's rounding, round half to even) on an exact
rational, as used for `int_ratio = round(ratio)` in `_process_audio`. -/
def pythonRound (q : ℚ) : ℤ :=
  let f : ℤ := ⌊q⌋
  let frac : ℚ := q - f
  if frac < 1/2 then f
  else if 1/2 < frac then f + 1
  else if f % 2 = 0 then f else f + 1

/-- Every `q`-th element of a list starting from index 0: the slicing
`x[::q]` that `scipy.signal.decimate` applies after its (length-preserving)
zero-phase anti-aliasing filter.  The filter is abstracted to the identity;
no claim checked here depends on filtered values. -/
def strideSlice (q : ℕ) : List ℚ → List ℚ
  | [] => []
  | x :: rest => x :: strideSlice q (rest.drop (q - 1))
  termination_by xs => xs.length
  decreasing_by
    simp only [List.length_drop, List.length_cons]
    omega

/-- `scipy.signal.resample_poly x up down`: output length is
`ceil (L * up / down)` exactly as in scipy (gcd reduction of `up/down` does
not change this value); sample values are abstracted to nearest-neighbour
selection since no claim checked here depends on the polyphase filter. -/
def resamplePoly (xs : List ℚ) (up down : ℕ) : List ℚ :=
  (List.range ((xs.length * up + down - 1) / down)).map
    (fun i => xs.getD (i * down / up) 0)

/-- Configuration surface of `AudioCapture.__init__`:
`target_sample_rate`, `accumulate_seconds`, `overlap_seconds`, and the
hand-off queue capacity (`queue.Queue(maxsize=5)`). -/
structure Config where
  targetRate : ℕ
  accumulateSeconds : ℕ
  overlapSeconds : ℕ
  handoffCapacity : ℕ
deriving Repr, DecidableEq

/-- Defaults from `AudioCapture.__init__`. -/
def defaultConfig : Config :=
  { targetRate := 16000, accumulateSeconds := 10, overlapSeconds := 2,
    handoffCapacity := 5 }

/-- `samples_threshold = self.target_sample_rate * self.accumulate_seconds`. -/
def Config.samplesThreshold (cfg : Config) : ℕ :=
  cfg.targetRate * cfg.accumulateSeconds

/-- `overlap_samples = int(self.target_sample_rate * self.overlap_seconds)`. -/
def Config.overlapSamples (cfg : Config) : ℕ :=
  cfg.targetRate * cfg.overlapSeconds

/-- The per-chunk resampling step at the top of `_process_audio`'s loop body
(lines 330-345): pass-through at the target rate; fast integer decimation when
the rate ratio rounds to an integer `> 1` within 1% and the chunk is longer
than 100 samples; otherwise polyphase resampling, guarded by
`num_samples = int(len * target / native) > 0` — when that guard fails the
chunk is left completely unchanged. -/
def resampleChunk (cfg : Config) (chunk : List ℚ) (nativeRate : ℕ) : List ℚ :=
  if nativeRate = cfg.targetRate then chunk
  else
    let ratio : ℚ := (nativeRate : ℚ) / (cfg.targetRate : ℚ)
    let intRatio : ℤ := pythonRound ratio
    if 1 < intRatio ∧ |ratio - (intRatio : ℚ)| < 1/100 ∧ 100 < chunk.length then
      strideSlice intRatio.toNat chunk
    else
      let numSamples : ℕ := chunk.length * cfg.targetRate / nativeRate
      if 0 < numSamples then resamplePoly chunk cfg.targetRate nativeRate
      else chunk

/-- The decimation-branch guard of `_process_audio` line 335: the rate
ratio rounds to an integer above 1, lies within 1% of it, and the chunk is
longer than 100 samples. -/
def decimateGuard (cfg : Config) (chunk : List ℚ) (nativeRate : ℕ) : Prop :=
  1 < pythonRound ((nativeRate : ℚ) / (cfg.targetRate : ℚ)) ∧
  |(nativeRate : ℚ) / (cfg.targetRate : ℚ) -
    ((pythonRound ((nativeRate : ℚ) / (cfg.targetRate : ℚ))) : ℚ)| < 1/100 ∧
  100 < chunk.length

/-- Sum of squared samples (`np.mean(x ** 2)` numerator). -/
def sumSq (xs : List ℚ) : ℚ := (xs.map (fun x => x * x)).sum

/-- The silence gate `rms_energy < 1e-6` of `_process_audio` line 367,
restated without the square root: for a nonempty span,
`sqrt (sumSq / n) < 10⁻⁶ ↔ sumSq * 10¹² < n`.  An empty span is never
silent, matching numpy semantics where the RMS of an empty array is NaN and
`NaN < 1e-6` is false. -/
def isSilent (xs : List ℚ) : Bool :=
  decide (0 < xs.length ∧ sumSq xs * 10^12 < (xs.length : ℚ))

/-- State of the accumulator thread `_process_audio` together with the
hand-off channel `transcription_queue` and the session counters it touches.
`flushedSpans`, `enqueuedSpans` and `dispatched` are ghost history fields
recording, in order: every span produced by a threshold flush (silent or
not), every span successfully enqueued on the hand-off channel, and every
span the dispatcher thread handed to the transcription callback. -/
structure AccState where
  accumulator : List (List ℚ)
  accumulatedSamples : ℕ
  droppedChunks : ℕ
  handoff : List (List ℚ)
  bufferProgress : ℚ
  flushedSpans : List (List ℚ)
  enqueuedSpans : List (List ℚ)
  dispatched : List (List ℚ)
deriving Repr, DecidableEq

/-- Accumulator-side state at the start of a session: empty window, zero
counters (`dropped_chunks = 0`, `buffer_progress = 0.0`), empty channel. -/
def initState : AccState :=
  { accumulator := [], accumulatedSamples := 0, droppedChunks := 0,
    handoff := [], bufferProgress := 0,
    flushedSpans := [], enqueuedSpans := [], dispatched := [] }

/-- The window re-seed computed at a flush (`_process_audio` lines 369-375 and
388-394): when `overlap_samples > 0 and len(full_audio) > overlap_samples`,
the window restarts as the span's last `overlap_samples` samples; otherwise it
is cleared. Returns the new `accumulator` list and `accumulated_samples`. -/
def reseed (cfg : Config) (full : List ℚ) : List (List ℚ) × ℕ :=
  if 0 < cfg.overlapSamples ∧ cfg.overlapSamples < full.length then
    ([full.drop (full.length - cfg.overlapSamples)], cfg.overlapSamples)
  else ([], 0)

/-- One iteration of `_process_audio`'s loop body for a tagged chunk
`(audio_float, native_rate)` taken from the ingest queue (lines 328-394):
resample, append to the window, update `buffer_progress`, and on reaching the
threshold flush the concatenated span through the silence gate and the
non-blocking hand-off enqueue, then re-seed the window. -/
def processChunk (cfg : Config) (st : AccState) (chunk : List ℚ)
    (nativeRate : ℕ) : AccState :=
  let audio := resampleChunk cfg chunk nativeRate
  let acc := st.accumulator ++ [audio]
  let n := st.accumulatedSamples + audio.length
  let progress := min 1 ((n : ℚ) / (cfg.samplesThreshold : ℚ))
  if cfg.samplesThreshold ≤ n then
    let full := acc.flatten
    let rs := reseed cfg full
    if isSilent full then
      { st with
        accumulator := rs.1
        accumulatedSamples := rs.2
        bufferProgress := progress
        flushedSpans := st.flushedSpans ++ [full] }
    else if st.handoff.length < cfg.handoffCapacity then
      { st with
        accumulator := rs.1
        accumulatedSamples := rs.2
        bufferProgress := progress
        handoff := st.handoff ++ [full]
        flushedSpans := st.flushedSpans ++ [full]
        enqueuedSpans := st.enqueuedSpans ++ [full] }
    else
      { st with
        accumulator := rs.1
        accumulatedSamples := rs.2
        bufferProgress := progress
        droppedChunks := st.droppedChunks + 1
        flushedSpans := st.flushedSpans ++ [full] }
  else
    { st with
      accumulator := acc
      accumulatedSamples := n
      bufferProgress := progress }

/-- One iteration of the dispatcher thread `_transcription_worker`: pop the
oldest span from the hand-off channel and invoke the transcription callback
on it (recorded in the `dispatched` ghost history); a timeout on an empty
channel leaves the state unchanged. -/
def dispatchStep (st : AccState) : AccState :=
  match st.handoff with
  | [] => st
  | s :: rest =>
      { st with
        handoff := rest
        dispatched := st.dispatched ++ [s] }

/-- Interleaved events of the two threads sharing the hand-off channel. -/
inductive Event where
  | chunk (samples : List ℚ) (nativeRate : ℕ)
  | dispatch
deriving Repr, DecidableEq

/-- Small-step over one event. -/
def step (cfg : Config) (st : AccState) : Event → AccState
  | .chunk samples nativeRate => processChunk cfg st samples nativeRate
  | .dispatch => dispatchStep st

/-- Run of a session: fold the event trace from the session-start state. -/
def run (cfg : Config) (events : List Event) : AccState :=
  events.foldl (step cfg) initState

/-- The shutdown flush at the bottom of `_process_audio` (lines 401-407):
if the chunk list is nonempty, concatenate it and enqueue the result with a
blocking, 5-second-timeout `put`.  The timeout branch (channel still full
after 5 s) is modelled as the channel being full at flush time; a drop here
does not touch `dropped_chunks`. -/
def finalFlush (cfg : Config) (st : AccState) : AccState :=
  if st.accumulator.isEmpty then st
  else
    let full := st.accumulator.flatten
    if st.handoff.length < cfg.handoffCapacity then
      { st with
        handoff := st.handoff ++ [full]
        enqueuedSpans := st.enqueuedSpans ++ [full] }
    else st

/-- State owned by the `AudioCapture` object as seen by `start_recording`
(`__init__` defaults plus the fields `start_recording` writes).  Thread
handles are modelled as booleans recording whether the accumulator
(`record_thread`) and dispatcher (`transcription_thread`) threads have been
spawned. -/
structure CaptureState where
  isRecording : Bool
  droppedChunks : ℕ
  activeDeviceNames : List String
  deviceStreams : List String
  bufferProgress : ℚ
  callbacksReceived : ℕ
  recordThread : Bool
  transcriptionThread : Bool
deriving Repr, DecidableEq

/-- The field values set by `AudioCapture.__init__`. -/
def initCapture : CaptureState :=
  { isRecording := false, droppedChunks := 0, activeDeviceNames := [],
    deviceStreams := [], bufferProgress := 0, callbacksReceived := 0,
    recordThread := false, transcriptionThread := false }

/-- `AudioCapture.start_recording` (lines 271-302).  The hardware outcome of
the device-opening phase (`_open_all_devices` / `_open_single_device`) is
supplied as `openedNames`: the names of the devices that opened
successfully, in order — both helpers append each successfully opened
stream to `device_streams` and its name to `active_device_names`.
Returns the new state and the boolean result. -/
def start_recording (st : CaptureState) (openedNames : List String) :
    CaptureState × Bool :=
  if st.isRecording then (st, false)
  else
    let st1 := { st with
      activeDeviceNames := openedNames
      deviceStreams := openedNames }
    if openedNames.isEmpty then (st1, false)
    else
      ({ st1 with
         isRecording := true
         droppedChunks := 0
         recordThread := true
         transcriptionThread := true }, true)

/-- Outcome of one `stream.read` call in `DeviceStream._read_loop`: a
successful read of interleaved int16 frames, an `OSError` (stream closed or
device disconnected), or any other exception (logged, loop continues). -/
inductive ReadResult where
  | ok (frames : List ℤ)
  | oserror
  | err
deriving Repr, DecidableEq

/-- `reshape(-1, c).mean(axis=1)`: average each group of `c` consecutive
interleaved samples (`c ≥ 1`). -/
def meanChannels (c : ℕ) : List ℚ → List ℚ
  | [] => []
  | x :: rest =>
      ((x :: rest.take (c - 1)).sum / (c : ℚ)) ::
        meanChannels c (rest.drop (c - 1))
  termination_by xs => xs.length
  decreasing_by
    simp only [List.length_drop, List.length_cons]
    omega

/-- Frame conversion in `_read_loop` (lines 71-75): int16 → float in
[-1, 1] by division by 32768, then mono-collapse by channel averaging when
`channels >= 2`. -/
def convertFrames (channels : ℕ) (frames : List ℤ) : List ℚ :=
  let floats := frames.map (fun v => (v : ℚ) / 32768)
  if 2 ≤ channels then meanChannels channels floats else floats

/-- `DeviceStream._read_loop` (lines 65-83) over the sequence of read
outcomes its stream will deliver: each successful read is converted and
enqueued as a tagged chunk on the ingest queue; an `OSError` breaks the loop
(nothing enqueued for that read, the thread exits and the stream is done);
any other exception is logged and the loop continues.  Returns the chunks
this device enqueued, in order.  Each `DeviceStream`'s loop is a function of
its own reads alone, so a failure here cannot affect sibling devices. -/
def readLoop (channels : ℕ) : List ReadResult → List (List ℚ)
  | [] => []
  | .ok frames :: rest => convertFrames channels frames :: readLoop channels rest
  | .oserror :: _ => []
  | .err :: rest => readLoop channels rest

/-- A small configuration for concrete checks: 2 Hz target, 2 s
accumulation (threshold 4 samples), 1 s overlap (2 samples), default
hand-off capacity. -/
def smallCfg : Config :=
  { targetRate := 2, accumulateSeconds := 2, overlapSeconds := 1,
    handoffCapacity := 5 }

/-- A concrete two-flush session trace under `smallCfg`. -/
def smallTrace : List Event :=
  [Event.chunk [1, 2, 3, 4] 2, Event.chunk [5, 6] 2]

/-- Accumulator state with the hand-off channel at capacity (5 spans). -/
def fullChannelSt : AccState :=
  { initState with handoff := [[1], [1], [1], [1], [1]] }

/-- A configuration whose overlap window (2 s · 4 Hz = 8 samples) exceeds
its accumulation threshold (1 s · 4 Hz = 4 samples), so a flushed span can
be shorter than the overlap window. -/
def shortSpanCfg : Config :=
  { targetRate := 4, accumulateSeconds := 1, overlapSeconds := 2,
    handoffCapacity := 5 }

/-! ## Characterisation lemmas for the accumulator step -/

/-- The samples a flush of span `p` re-seeds into the window. -/
def seedOf (cfg : Config) (p : List ℚ) : List ℚ := (reseed cfg p).1.flatten

lemma seedOf_eq (cfg : Config) (p : List ℚ) :
    seedOf cfg p =
      if 0 < cfg.overlapSamples ∧ cfg.overlapSamples < p.length then
        p.drop (p.length - cfg.overlapSamples)
      else [] := by
  unfold seedOf reseed
  split <;> simp

lemma reseed_fst_flatten (cfg : Config) (p : List ℚ) :
    (reseed cfg p).1.flatten = seedOf cfg p := rfl

lemma reseed_snd_eq (cfg : Config) (p : List ℚ) :
    (reseed cfg p).2 = (reseed cfg p).1.flatten.length := by
  unfold reseed
  split
  · next h => simp; omega
  · simp

lemma processChunk_of_lt (cfg : Config) (st : AccState) (c : List ℚ) (r : ℕ)
    (h : st.accumulatedSamples + (resampleChunk cfg c r).length <
      cfg.samplesThreshold) :
    processChunk cfg st c r = { st with
      accumulator := st.accumulator ++ [resampleChunk cfg c r]
      accumulatedSamples := st.accumulatedSamples + (resampleChunk cfg c r).length
      bufferProgress := min 1
        (((st.accumulatedSamples + (resampleChunk cfg c r).length : ℕ) : ℚ) /
          ((cfg.samplesThreshold : ℕ) : ℚ)) } := by
  simp only [processChunk]
  rw [if_neg (by omega)]

lemma processChunk_silent (cfg : Config) (st : AccState) (c : List ℚ) (r : ℕ)
    (h : cfg.samplesThreshold ≤
      st.accumulatedSamples + (resampleChunk cfg c r).length)
    (hsil : isSilent ((st.accumulator ++ [resampleChunk cfg c r]).flatten) = true) :
    processChunk cfg st c r = { st with
      accumulator := (reseed cfg ((st.accumulator ++ [resampleChunk cfg c r]).flatten)).1
      accumulatedSamples := (reseed cfg ((st.accumulator ++ [resampleChunk cfg c r]).flatten)).2
      bufferProgress := min 1
        (((st.accumulatedSamples + (resampleChunk cfg c r).length : ℕ) : ℚ) /
          ((cfg.samplesThreshold : ℕ) : ℚ))
      flushedSpans := st.flushedSpans ++
        [(st.accumulator ++ [resampleChunk cfg c r]).flatten] } := by
  simp only [processChunk]
  rw [if_pos h, if_pos hsil]

lemma processChunk_enqueue (cfg : Config) (st : AccState) (c : List ℚ) (r : ℕ)
    (h : cfg.samplesThreshold ≤
      st.accumulatedSamples + (resampleChunk cfg c r).length)
    (hsil : isSilent ((st.accumulator ++ [resampleChunk cfg c r]).flatten) = false)
    (hroom : st.handoff.length < cfg.handoffCapacity) :
    processChunk cfg st c r = { st with
      accumulator := (reseed cfg ((st.accumulator ++ [resampleChunk cfg c r]).flatten)).1
      accumulatedSamples := (reseed cfg ((st.accumulator ++ [resampleChunk cfg c r]).flatten)).2
      bufferProgress := min 1
        (((st.accumulatedSamples + (resampleChunk cfg c r).length : ℕ) : ℚ) /
          ((cfg.samplesThreshold : ℕ) : ℚ))
      handoff := st.handoff ++ [(st.accumulator ++ [resampleChunk cfg c r]).flatten]
      flushedSpans := st.flushedSpans ++
        [(st.accumulator ++ [resampleChunk cfg c r]).flatten]
      enqueuedSpans := st.enqueuedSpans ++
        [(st.accumulator ++ [resampleChunk cfg c r]).flatten] } := by
  simp only [processChunk]
  rw [if_pos h, if_neg (by rw [hsil]; simp), if_pos hroom]

lemma processChunk_drop (cfg : Config) (st : AccState) (c : List ℚ) (r : ℕ)
    (h : cfg.samplesThreshold ≤
      st.accumulatedSamples + (resampleChunk cfg c r).length)
    (hsil : isSilent ((st.accumulator ++ [resampleChunk cfg c r]).flatten) = false)
    (hfull : ¬ st.handoff.length < cfg.handoffCapacity) :
    processChunk cfg st c r = { st with
      accumulator := (reseed cfg ((st.accumulator ++ [resampleChunk cfg c r]).flatten)).1
      accumulatedSamples := (reseed cfg ((st.accumulator ++ [resampleChunk cfg c r]).flatten)).2
      bufferProgress := min 1
        (((st.accumulatedSamples + (resampleChunk cfg c r).length : ℕ) : ℚ) /
          ((cfg.samplesThreshold : ℕ) : ℚ))
      droppedChunks := st.droppedChunks + 1
      flushedSpans := st.flushedSpans ++
        [(st.accumulator ++ [resampleChunk cfg c r]).flatten] } := by
  simp only [processChunk]
  rw [if_pos h, if_neg (by rw [hsil]; simp), if_neg hfull]

/-! ## Session invariant -/

/-- Invariant maintained by `_process_audio` and `_transcription_worker`
across a session:

* `sampleCount`: `accumulated_samples` equals the number of samples in the
  window (the code tracks the count separately from the chunk list);
* `chain`: each flushed span has the previous flushed span's re-seed as a
  prefix (overlap continuity, including across silent spans);
* `lastSeed`: the current window starts with the re-seed of the most
  recently flushed span;
* `flushedLen`: every flushed span holds at least `samples_threshold`
  samples;
* `enqueuedLen`: so does every enqueued span;
* `enqueuedLoud`: no enqueued span is silent;
* `channel`: the hand-off channel content plus what was already dispatched
  is exactly the sequence of successfully enqueued spans. -/
structure Inv (cfg : Config) (st : AccState) : Prop where
  sampleCount : st.accumulatedSamples = st.accumulator.flatten.length
  chain : List.Chain' (fun p s => seedOf cfg p <+: s) st.flushedSpans
  lastSeed : ∀ p, st.flushedSpans.getLast? = some p →
    seedOf cfg p <+: st.accumulator.flatten
  flushedLen : ∀ s ∈ st.flushedSpans, cfg.samplesThreshold ≤ s.length
  enqueuedLen : ∀ s ∈ st.enqueuedSpans, cfg.samplesThreshold ≤ s.length
  enqueuedLoud : ∀ s ∈ st.enqueuedSpans, isSilent s = false
  channel : st.dispatched ++ st.handoff = st.enqueuedSpans

lemma inv_init (cfg : Config) : Inv cfg initState := by
  constructor <;> simp [initState]

lemma flatten_append_singleton (acc : List (List ℚ)) (audio : List ℚ) :
    (acc ++ [audio]).flatten = acc.flatten ++ audio := by
  simp

/-- Common part of the three flush branches: the flushed span, the re-seeded
window and the ghost span history satisfy the invariant clauses that do not
mention the hand-off channel. -/
lemma inv_flush_core (cfg : Config) (st : AccState) (c : List ℚ) (r : ℕ)
    (inv : Inv cfg st)
    (h : cfg.samplesThreshold ≤
      st.accumulatedSamples + (resampleChunk cfg c r).length) :
    ((reseed cfg ((st.accumulator ++ [resampleChunk cfg c r]).flatten)).2 =
      (reseed cfg ((st.accumulator ++ [resampleChunk cfg c r]).flatten)).1.flatten.length) ∧
    List.Chain' (fun p s => seedOf cfg p <+: s)
      (st.flushedSpans ++ [(st.accumulator ++ [resampleChunk cfg c r]).flatten]) ∧
    (∀ p, (st.flushedSpans ++
        [(st.accumulator ++ [resampleChunk cfg c r]).flatten]).getLast? = some p →
      seedOf cfg p <+:
        (reseed cfg ((st.accumulator ++ [resampleChunk cfg c r]).flatten)).1.flatten) ∧
    (∀ s ∈ st.flushedSpans ++ [(st.accumulator ++ [resampleChunk cfg c r]).flatten],
      cfg.samplesThreshold ≤ s.length) := by
  set audio := resampleChunk cfg c r with haudio
  set full := (st.accumulator ++ [audio]).flatten with hfull
  have hfull' : full = st.accumulator.flatten ++ audio :=
    flatten_append_singleton _ _
  have hlen : cfg.samplesThreshold ≤ full.length := by
    have hsc := inv.sampleCount
    rw [hfull']
    simp only [List.length_append]
    omega
  refine ⟨reseed_snd_eq cfg full, ?_, ?_, ?_⟩
  · rw [List.chain'_append]
    refine ⟨inv.chain, List.chain'_singleton _, ?_⟩
    intro x hx y hy
    simp only [List.head?_cons, Option.mem_def, Option.some.injEq] at hy
    subst hy
    have := inv.lastSeed x hx
    rw [hfull']
    exact this.trans (List.prefix_append _ _)
  · intro p hp
    rw [List.getLast?_append_cons] at hp
    simp only [List.getLast?_singleton, Option.some.injEq] at hp
    subst hp
    exact List.prefix_rfl
  · intro s hs
    rcases List.mem_append.mp hs with hs | hs
    · exact inv.flushedLen s hs
    · simp only [List.mem_singleton] at hs
      subst hs
      exact hlen

lemma inv_processChunk (cfg : Config) (st : AccState) (c : List ℚ) (r : ℕ)
    (inv : Inv cfg st) : Inv cfg (processChunk cfg st c r) := by
  by_cases hth : cfg.samplesThreshold ≤
      st.accumulatedSamples + (resampleChunk cfg c r).length
  · obtain ⟨h1, h2, h3, h4⟩ := inv_flush_core cfg st c r inv hth
    have hfullLen : cfg.samplesThreshold ≤
        ((st.accumulator ++ [resampleChunk cfg c r]).flatten).length :=
      h4 _ (by simp)
    by_cases hsil : isSilent ((st.accumulator ++ [resampleChunk cfg c r]).flatten) = true
    · rw [processChunk_silent cfg st c r hth hsil]
      exact {
        sampleCount := h1
        chain := h2
        lastSeed := h3
        flushedLen := h4
        enqueuedLen := inv.enqueuedLen
        enqueuedLoud := inv.enqueuedLoud
        channel := inv.channel }
    · rw [Bool.not_eq_true] at hsil
      by_cases hroom : st.handoff.length < cfg.handoffCapacity
      · rw [processChunk_enqueue cfg st c r hth hsil hroom]
        refine {
          sampleCount := h1
          chain := h2
          lastSeed := h3
          flushedLen := h4
          enqueuedLen := ?_
          enqueuedLoud := ?_
          channel := ?_ }
        · intro s hs
          rcases List.mem_append.mp hs with hs | hs
          · exact inv.enqueuedLen s hs
          · simp only [List.mem_singleton] at hs
            subst hs
            exact hfullLen
        · intro s hs
          rcases List.mem_append.mp hs with hs | hs
          · exact inv.enqueuedLoud s hs
          · simp only [List.mem_singleton] at hs
            subst hs
            exact hsil
        · rw [← List.append_assoc, inv.channel]
      · rw [processChunk_drop cfg st c r hth hsil hroom]
        exact {
          sampleCount := h1
          chain := h2
          lastSeed := h3
          flushedLen := h4
          enqueuedLen := inv.enqueuedLen
          enqueuedLoud := inv.enqueuedLoud
          channel := inv.channel }
  · rw [processChunk_of_lt cfg st c r (by omega)]
    refine {
      sampleCount := ?_
      chain := inv.chain
      lastSeed := ?_
      flushedLen := inv.flushedLen
      enqueuedLen := inv.enqueuedLen
      enqueuedLoud := inv.enqueuedLoud
      channel := inv.channel }
    · have := inv.sampleCount
      rw [flatten_append_singleton]
      simp only [List.length_append]
      omega
    · intro p hp
      have h := inv.lastSeed p hp
      rw [flatten_append_singleton]
      exact h.trans (List.prefix_append _ _)

lemma inv_dispatchStep (cfg : Config) (st : AccState) (inv : Inv cfg st) :
    Inv cfg (dispatchStep st) := by
  unfold dispatchStep
  split
  · exact inv
  · next s rest hh =>
    refine {
      sampleCount := inv.sampleCount
      chain := inv.chain
      lastSeed := inv.lastSeed
      flushedLen := inv.flushedLen
      enqueuedLen := inv.enqueuedLen
      enqueuedLoud := inv.enqueuedLoud
      channel := ?_ }
    have hch := inv.channel
    rw [hh] at hch
    simpa [List.append_assoc] using hch

lemma inv_step_pres (cfg : Config) (st : AccState) (e : Event)
    (inv : Inv cfg st) : Inv cfg (step cfg st e) := by
  cases e with
  | chunk c r => exact inv_processChunk cfg st c r inv
  | dispatch => exact inv_dispatchStep cfg st inv

lemma inv_foldl (cfg : Config) (l : List Event) (st : AccState)
    (inv : Inv cfg st) : Inv cfg (l.foldl (step cfg) st) := by
  induction l generalizing st with
  | nil => exact inv
  | cons e rest ih => exact ih _ (inv_step_pres cfg st e inv)

lemma inv_run (cfg : Config) (events : List Event) :
    Inv cfg (run cfg events) :=
  inv_foldl cfg events initState (inv_init cfg)

/-! ## Claim theorems -/

/-- C7: if zero devices open, `start_recording` returns false, spawns no
accumulator or dispatcher thread, leaves the recording flag false and the
session counters at their defaults; and calling it while already recording
is a no-op returning false. -/
theorem start_zero_devices_or_reentrant :
    (∀ st : CaptureState, st.isRecording = false → st.recordThread = false →
      st.transcriptionThread = false → st.droppedChunks = 0 →
      st.bufferProgress = 0 → st.callbacksReceived = 0 →
      (start_recording st []).2 = false ∧
      (start_recording st []).1.isRecording = false ∧
      (start_recording st []).1.recordThread = false ∧
      (start_recording st []).1.transcriptionThread = false ∧
      (start_recording st []).1.droppedChunks = 0 ∧
      (start_recording st []).1.bufferProgress = 0 ∧
      (start_recording st []).1.callbacksReceived = 0 ∧
      (start_recording st []).1.activeDeviceNames = []) ∧
    (∀ (st : CaptureState) (names : List String), st.isRecording = true →
      start_recording st names = (st, false)) := by
  constructor
  · intro st h1 h2 h3 h4 h5 h6
    simp [start_recording, h1, h2, h3, h4, h5, h6]
  · intro st names h
    simp [start_recording, h]

/-- C7 witness: concrete failing and re-entrant calls. -/
theorem start_zero_devices_or_reentrant_witness :
    ((start_recording initCapture []).2 = false ∧
      (start_recording initCapture []).1.isRecording = false ∧
      (start_recording initCapture []).1.recordThread = false ∧
      (start_recording initCapture []).1.transcriptionThread = false ∧
      (start_recording initCapture []).1.droppedChunks = 0 ∧
      (start_recording initCapture []).1.bufferProgress = 0 ∧
      (start_recording initCapture []).1.callbacksReceived = 0 ∧
      (start_recording initCapture []).1.activeDeviceNames = []) ∧
    start_recording { initCapture with isRecording := true } ["dev"] =
      ({ initCapture with isRecording := true }, false) :=
  ⟨start_zero_devices_or_reentrant.1 initCapture rfl rfl rfl rfl rfl rfl,
    start_zero_devices_or_reentrant.2 { initCapture with isRecording := true }
      ["dev"] rfl⟩

/-- C8 counterexample: a successful `start_recording` does not reset
`buffer_progress`, so a previous session's value (here 1/2) is still
observable after the new session's threads have been spawned. -/
theorem start_counter_reset_counterexample :
    (start_recording { initCapture with bufferProgress := 1/2 } ["dev"]).2 =
      true ∧
    (start_recording { initCapture with bufferProgress := 1/2 }
      ["dev"]).1.bufferProgress ≠ 0 := by
  constructor
  · simp [start_recording, initCapture]
  · simp [start_recording, initCapture]

/-- C8 amended: a successful `start_recording` resets `dropped_chunks` to 0
and replaces `active_device_names` with the newly opened device names, but
leaves `buffer_progress` and `callbacks_received` untouched from the
previous session. -/
theorem start_success_counter_updates (st : CaptureState)
    (names : List String) (hrec : st.isRecording = false)
    (hnames : names ≠ []) :
    (start_recording st names).2 = true ∧
    (start_recording st names).1.droppedChunks = 0 ∧
    (start_recording st names).1.activeDeviceNames = names ∧
    (start_recording st names).1.deviceStreams = names ∧
    (start_recording st names).1.bufferProgress = st.bufferProgress ∧
    (start_recording st names).1.callbacksReceived = st.callbacksReceived ∧
    (start_recording st names).1.isRecording = true ∧
    (start_recording st names).1.recordThread = true ∧
    (start_recording st names).1.transcriptionThread = true := by
  simp [start_recording, hrec, hnames]

/-- C8 amended witness: a successful start from a state carrying a previous
session's counter values. -/
theorem start_success_counter_updates_witness :
    ({ initCapture with bufferProgress := 1/2 } : CaptureState).isRecording =
      false ∧
    (["dev"] : List String) ≠ [] ∧
    ((start_recording { initCapture with bufferProgress := 1/2 }
        ["dev"]).2 = true ∧
      (start_recording { initCapture with bufferProgress := 1/2 }
        ["dev"]).1.droppedChunks = 0 ∧
      (start_recording { initCapture with bufferProgress := 1/2 }
        ["dev"]).1.activeDeviceNames = ["dev"] ∧
      (start_recording { initCapture with bufferProgress := 1/2 }
        ["dev"]).1.deviceStreams = ["dev"] ∧
      (start_recording { initCapture with bufferProgress := 1/2 }
        ["dev"]).1.bufferProgress =
        ({ initCapture with bufferProgress := 1/2 } : CaptureState).bufferProgress ∧
      (start_recording { initCapture with bufferProgress := 1/2 }
        ["dev"]).1.callbacksReceived =
        ({ initCapture with bufferProgress := 1/2 } : CaptureState).callbacksReceived ∧
      (start_recording { initCapture with bufferProgress := 1/2 }
        ["dev"]).1.isRecording = true ∧
      (start_recording { initCapture with bufferProgress := 1/2 }
        ["dev"]).1.recordThread = true ∧
      (start_recording { initCapture with bufferProgress := 1/2 }
        ["dev"]).1.transcriptionThread = true) :=
  ⟨rfl, by simp,
    start_success_counter_updates { initCapture with bufferProgress := 1/2 }
      ["dev"] rfl (by simp)⟩

/-- C9: an `OSError` in the reader loop breaks the loop silently — nothing
is enqueued for the failed read, no later read is processed, and the chunks
already enqueued are exactly those of the error-free prefix. -/
theorem read_loop_oserror_breaks (channels : ℕ) (pre post : List ReadResult)
    (hpre : ReadResult.oserror ∉ pre) :
    readLoop channels (pre ++ ReadResult.oserror :: post) =
      readLoop channels pre := by
  induction pre with
  | nil => rfl
  | cons a rest ih =>
      cases a with
      | ok frames =>
          simp only [List.cons_append, readLoop, List.append_eq]
          rw [ih (fun hm => hpre (List.mem_cons_of_mem _ hm))]
      | oserror => exact absurd (List.mem_cons_self _ _) hpre
      | err =>
          simp only [List.cons_append, readLoop, List.append_eq]
          exact ih (fun hm => hpre (List.mem_cons_of_mem _ hm))

/-- C9 witness: a device stream that reads one good chunk, one logged
error, then disconnects; the pending reads after the `OSError` are never
processed. -/
theorem read_loop_oserror_breaks_witness :
    ReadResult.oserror ∉ [ReadResult.ok [16384, 16384], ReadResult.err] ∧
    readLoop 2 ([ReadResult.ok [16384, 16384], ReadResult.err] ++
        ReadResult.oserror :: [ReadResult.ok [1, 1]]) =
      readLoop 2 [ReadResult.ok [16384, 16384], ReadResult.err] :=
  ⟨by decide,
    read_loop_oserror_breaks 2 [ReadResult.ok [16384, 16384], ReadResult.err]
      [ReadResult.ok [1, 1]] (by decide)⟩

/-- C10: a chunk at a foreign rate that misses the decimation branch and
has `int(len * target / native) == 0` is appended to the window completely
unchanged — neither resampled nor dropped. -/
theorem tiny_chunk_pass_through (cfg : Config) (chunk : List ℚ)
    (nativeRate : ℕ) (hne : nativeRate ≠ cfg.targetRate)
    (hdec : ¬ (1 < pythonRound ((nativeRate : ℚ) / (cfg.targetRate : ℚ)) ∧
      |(nativeRate : ℚ) / (cfg.targetRate : ℚ) -
        ((pythonRound ((nativeRate : ℚ) / (cfg.targetRate : ℚ))) : ℚ)| <
        1/100 ∧
      100 < chunk.length))
    (hzero : chunk.length * cfg.targetRate / nativeRate = 0) :
    resampleChunk cfg chunk nativeRate = chunk := by
  simp only [resampleChunk]
  rw [if_neg hne, if_neg hdec, if_neg (by omega)]

/-- C10 witness: a 2-sample chunk at 48000 Hz under the default 16000 Hz
target passes through unchanged. -/
theorem tiny_chunk_pass_through_witness :
    (48000 ≠ defaultConfig.targetRate) ∧
    ([1, 1] : List ℚ).length * defaultConfig.targetRate / 48000 = 0 ∧
    resampleChunk defaultConfig [1, 1] 48000 = [1, 1] := by
  refine ⟨by decide, by decide, ?_⟩
  apply tiny_chunk_pass_through defaultConfig [1, 1] 48000 (by decide) ?_
    (by decide)
  intro hcontra
  have := hcontra.2.2
  simp at this

lemma reseed_snd_ite (cfg : Config) (full : List ℚ) :
    (reseed cfg full).2 =
      if 0 < cfg.overlapSamples ∧ cfg.overlapSamples < full.length then
        cfg.overlapSamples
      else 0 := by
  unfold reseed
  split <;> simp

/-- C2: a flushed span whose RMS is below the silence threshold is not
enqueued on the hand-off channel and does not touch the dropped counter,
yet the window is re-seeded through the same `reseed` computation as for a
delivered span; and in any session run, every span handed to the
transcription callback is non-silent. -/
theorem silent_span_skipped (cfg : Config) (st : AccState) (c : List ℚ)
    (r : ℕ)
    (hth : cfg.samplesThreshold ≤
      st.accumulatedSamples + (resampleChunk cfg c r).length)
    (hsil : isSilent ((st.accumulator ++ [resampleChunk cfg c r]).flatten) =
      true) :
    ((processChunk cfg st c r).handoff = st.handoff ∧
      (processChunk cfg st c r).enqueuedSpans = st.enqueuedSpans ∧
      (processChunk cfg st c r).droppedChunks = st.droppedChunks ∧
      (processChunk cfg st c r).accumulator =
        (reseed cfg ((st.accumulator ++ [resampleChunk cfg c r]).flatten)).1 ∧
      (processChunk cfg st c r).accumulatedSamples =
        (reseed cfg ((st.accumulator ++ [resampleChunk cfg c r]).flatten)).2) ∧
    (∀ (events : List Event) (s : List ℚ),
      s ∈ (run cfg events).dispatched → isSilent s = false) := by
  constructor
  · rw [processChunk_silent cfg st c r hth hsil]
    exact ⟨rfl, rfl, rfl, rfl, rfl⟩
  · intro events s hs
    have inv := inv_run cfg events
    have hmem : s ∈ (run cfg events).dispatched ++ (run cfg events).handoff :=
      List.mem_append.mpr (Or.inl hs)
    rw [inv.channel] at hmem
    exact inv.enqueuedLoud s hmem

/-- C2 witness: an all-zero 4-sample window under `smallCfg` is silent; its
flush leaves the hand-off channel untouched. -/
theorem silent_span_skipped_witness :
    (processChunk smallCfg initState [0, 0, 0, 0] 2).handoff =
      initState.handoff ∧
    (processChunk smallCfg initState [0, 0, 0, 0] 2).enqueuedSpans =
      initState.enqueuedSpans :=
  ⟨(silent_span_skipped smallCfg initState [0, 0, 0, 0] 2
      (by simp [smallCfg, initState, resampleChunk, Config.samplesThreshold])
      (by simp [smallCfg, initState, resampleChunk, isSilent, sumSq])).1.1,
    (silent_span_skipped smallCfg initState [0, 0, 0, 0] 2
      (by simp [smallCfg, initState, resampleChunk, Config.samplesThreshold])
      (by simp [smallCfg, initState, resampleChunk, isSilent, sumSq])).1.2.1⟩

/-- C3: the hand-off enqueue is a single non-blocking attempt: with the
channel full, the span is discarded and `dropped_chunks` increments by
exactly one; with room, the span is appended and the counter is untouched;
the default channel capacity is 5. -/
theorem handoff_nonblocking_drop (cfg : Config) (st : AccState) (c : List ℚ)
    (r : ℕ)
    (hth : cfg.samplesThreshold ≤
      st.accumulatedSamples + (resampleChunk cfg c r).length)
    (hsil : isSilent ((st.accumulator ++ [resampleChunk cfg c r]).flatten) =
      false) :
    (¬ st.handoff.length < cfg.handoffCapacity →
      (processChunk cfg st c r).droppedChunks = st.droppedChunks + 1 ∧
      (processChunk cfg st c r).handoff = st.handoff ∧
      (processChunk cfg st c r).enqueuedSpans = st.enqueuedSpans) ∧
    (st.handoff.length < cfg.handoffCapacity →
      (processChunk cfg st c r).droppedChunks = st.droppedChunks ∧
      (processChunk cfg st c r).handoff =
        st.handoff ++ [(st.accumulator ++ [resampleChunk cfg c r]).flatten]) ∧
    defaultConfig.handoffCapacity = 5 := by
  refine ⟨fun hfull => ?_, fun hroom => ?_, rfl⟩
  · rw [processChunk_drop cfg st c r hth hsil hfull]
    exact ⟨rfl, rfl, rfl⟩
  · rw [processChunk_enqueue cfg st c r hth hsil hroom]
    exact ⟨rfl, rfl⟩

/-- C3 witness: flushing a non-silent span into a full channel increments
the dropped counter by exactly one and leaves the channel unchanged. -/
theorem handoff_nonblocking_drop_witness :
    (processChunk smallCfg fullChannelSt [1, 2, 3, 4] 2).droppedChunks =
      fullChannelSt.droppedChunks + 1 ∧
    (processChunk smallCfg fullChannelSt [1, 2, 3, 4] 2).handoff =
      fullChannelSt.handoff :=
  ⟨((handoff_nonblocking_drop smallCfg fullChannelSt [1, 2, 3, 4] 2
      (by simp [smallCfg, fullChannelSt, initState, resampleChunk,
        Config.samplesThreshold])
      (by simp [smallCfg, fullChannelSt, initState, resampleChunk, isSilent,
          sumSq]
          norm_num)).1 (by simp [fullChannelSt, initState, smallCfg])).1,
    ((handoff_nonblocking_drop smallCfg fullChannelSt [1, 2, 3, 4] 2
      (by simp [smallCfg, fullChannelSt, initState, resampleChunk,
        Config.samplesThreshold])
      (by simp [smallCfg, fullChannelSt, initState, resampleChunk, isSilent,
          sumSq]
          norm_num)).1 (by simp [fullChannelSt, initState, smallCfg])).2.1⟩

/-- C4 counterexample: under `shortSpanCfg` (threshold 4 samples, overlap
window 8 samples) the flushed span `[1,2,3,4]` is not longer than the
overlap window, and the window is cleared instead of being re-seeded with
the whole span — the retained seed has length 0, not
`min (len span) overlap_samples = 4`. -/
theorem flush_reseed_counterexample :
    (run shortSpanCfg [Event.chunk [1, 2, 3, 4] 4]).flushedSpans =
      [[1, 2, 3, 4]] ∧
    (run shortSpanCfg [Event.chunk [1, 2, 3, 4] 4]).accumulator = [] ∧
    (run shortSpanCfg [Event.chunk [1, 2, 3, 4] 4]).accumulatedSamples = 0 ∧
    min ([1, 2, 3, 4] : List ℚ).length shortSpanCfg.overlapSamples = 4 := by
  have hrun : run shortSpanCfg [Event.chunk [1, 2, 3, 4] 4] =
      { initState with
        accumulator := []
        accumulatedSamples := 0
        bufferProgress := 1
        flushedSpans := [[1, 2, 3, 4]]
        handoff := [[1, 2, 3, 4]]
        enqueuedSpans := [[1, 2, 3, 4]] } := by
    simp only [run, List.foldl, step, processChunk, resampleChunk,
      shortSpanCfg, Config.samplesThreshold, Config.overlapSamples, reseed,
      isSilent, sumSq, initState]
    norm_num
  rw [hrun]
  refine ⟨rfl, rfl, rfl, ?_⟩
  simp [shortSpanCfg, Config.overlapSamples]

/-- C4 amended: on every threshold flush, the window is re-seeded with the
span's trailing `overlap_samples` samples when `overlap_samples > 0` and
the span is strictly longer than the overlap window; otherwise the window
is cleared, so the retained seed has length `overlap_samples` in the first
case and `0` in the second. -/
theorem flush_reseed (cfg : Config) (st : AccState) (c : List ℚ) (r : ℕ)
    (hth : cfg.samplesThreshold ≤
      st.accumulatedSamples + (resampleChunk cfg c r).length) :
    (processChunk cfg st c r).accumulator.flatten =
      (if 0 < cfg.overlapSamples ∧ cfg.overlapSamples <
          ((st.accumulator ++ [resampleChunk cfg c r]).flatten).length then
        ((st.accumulator ++ [resampleChunk cfg c r]).flatten).drop
          (((st.accumulator ++ [resampleChunk cfg c r]).flatten).length -
            cfg.overlapSamples)
      else []) ∧
    (processChunk cfg st c r).accumulatedSamples =
      (if 0 < cfg.overlapSamples ∧ cfg.overlapSamples <
          ((st.accumulator ++ [resampleChunk cfg c r]).flatten).length then
        cfg.overlapSamples
      else 0) := by
  have hsd := seedOf_eq cfg ((st.accumulator ++ [resampleChunk cfg c r]).flatten)
  have hsn := reseed_snd_ite cfg ((st.accumulator ++ [resampleChunk cfg c r]).flatten)
  by_cases hsil : isSilent ((st.accumulator ++ [resampleChunk cfg c r]).flatten) = true
  · rw [processChunk_silent cfg st c r hth hsil]
    exact ⟨hsd, hsn⟩
  · rw [Bool.not_eq_true] at hsil
    by_cases hroom : st.handoff.length < cfg.handoffCapacity
    · rw [processChunk_enqueue cfg st c r hth hsil hroom]
      exact ⟨hsd, hsn⟩
    · rw [processChunk_drop cfg st c r hth hsil hroom]
      exact ⟨hsd, hsn⟩

/-- C4 amended witness: the first flush of `smallTrace` re-seeds the window
with the span's 2 trailing samples. -/
theorem flush_reseed_witness :
    (processChunk smallCfg initState [1, 2, 3, 4] 2).accumulator.flatten =
      ([1, 2, 3, 4] : List ℚ).drop 2 ∧
    (processChunk smallCfg initState [1, 2, 3, 4] 2).accumulatedSamples =
      smallCfg.overlapSamples := by
  have h := flush_reseed smallCfg initState [1, 2, 3, 4] 2
    (by simp [smallCfg, initState, resampleChunk, Config.samplesThreshold])
  have hres : resampleChunk smallCfg [1, 2, 3, 4] 2 = [1, 2, 3, 4] := by
    simp [resampleChunk, smallCfg]
  rw [hres] at h
  have hcond : 0 < smallCfg.overlapSamples ∧ smallCfg.overlapSamples <
      ((initState.accumulator ++ [[1, 2, 3, 4]]).flatten).length := by
    simp [smallCfg, initState, Config.overlapSamples]
  rw [if_pos hcond, if_pos hcond] at h
  simpa [initState, smallCfg, Config.overlapSamples] using h

/-- C6: every span flushed (and a fortiori every span enqueued on the
hand-off channel) during a running session holds at least
`accumulate_seconds * target_rate` samples; the shutdown flush adds at most
one extra — possibly shorter — span to the enqueued history. -/
theorem min_span_length (cfg : Config) (events : List Event) :
    (∀ s ∈ (run cfg events).enqueuedSpans, cfg.samplesThreshold ≤ s.length) ∧
    (∀ s ∈ (run cfg events).flushedSpans, cfg.samplesThreshold ≤ s.length) ∧
    ((finalFlush cfg (run cfg events)).enqueuedSpans =
        (run cfg events).enqueuedSpans ∨
      (finalFlush cfg (run cfg events)).enqueuedSpans =
        (run cfg events).enqueuedSpans ++
          [(run cfg events).accumulator.flatten]) := by
  have inv := inv_run cfg events
  refine ⟨inv.enqueuedLen, inv.flushedLen, ?_⟩
  unfold finalFlush
  split
  · exact Or.inl rfl
  · split
    · exact Or.inr rfl
    · exact Or.inl rfl

/-- C6 witness: the first enqueued span of the concrete trace holds the
full threshold's worth of samples. -/
theorem min_span_length_witness :
    ([1, 2, 3, 4] : List ℚ) ∈ (run smallCfg smallTrace).enqueuedSpans ∧
    smallCfg.samplesThreshold ≤ ([1, 2, 3, 4] : List ℚ).length := by
  have hrun : (run smallCfg smallTrace).enqueuedSpans =
      [[1, 2, 3, 4], [3, 4, 5, 6]] := by
    simp only [run, smallTrace, List.foldl, step, processChunk,
      resampleChunk, smallCfg, Config.samplesThreshold,
      Config.overlapSamples, reseed, isSilent, sumSq, initState]
    norm_num
  refine ⟨by rw [hrun]; simp, ?_⟩
  exact (min_span_length smallCfg smallTrace).1 [1, 2, 3, 4]
    (by rw [hrun]; simp)

/-- C1: consecutive flushed spans overlap: whenever the overlap window is
positive and span N-1 is strictly longer than it, span N's leading
`overlap_samples` samples equal span N-1's trailing `overlap_samples`
samples, post-resample. -/
theorem span_overlap_continuity (cfg : Config) (events : List Event)
    (i : ℕ) (p s : List ℚ)
    (hi : i + 1 < (run cfg events).flushedSpans.length)
    (hp : (run cfg events).flushedSpans.getD i [] = p)
    (hs : (run cfg events).flushedSpans.getD (i + 1) [] = s)
    (hov : 0 < cfg.overlapSamples)
    (hlen : cfg.overlapSamples < p.length) :
    s.take cfg.overlapSamples = p.drop (p.length - cfg.overlapSamples) := by
  have inv := inv_run cfg events
  have hchain := inv.chain
  rw [List.chain'_iff_get] at hchain
  have hR := hchain i (by omega)
  have hpi : (run cfg events).flushedSpans.get ⟨i, by omega⟩ = p := by
    rw [List.get_eq_getElem, ← List.getD_eq_getElem _ [] (by omega)]
    exact hp
  have hsi : (run cfg events).flushedSpans.get ⟨i + 1, by omega⟩ = s := by
    rw [List.get_eq_getElem, ← List.getD_eq_getElem _ [] (by omega)]
    exact hs
  rw [hpi, hsi] at hR
  rw [seedOf_eq, if_pos ⟨hov, hlen⟩] at hR
  have hdl : (p.drop (p.length - cfg.overlapSamples)).length =
      cfg.overlapSamples := by
    rw [List.length_drop]
    omega
  have h2 := List.prefix_iff_eq_take.mp hR
  rw [hdl] at h2
  exact h2.symm

/-- C1 witness: in the concrete two-flush trace, the second span's leading
2 samples are the first span's trailing 2 samples. -/
theorem span_overlap_continuity_witness :
    ([3, 4, 5, 6] : List ℚ).take smallCfg.overlapSamples =
      ([1, 2, 3, 4] : List ℚ).drop
        (([1, 2, 3, 4] : List ℚ).length - smallCfg.overlapSamples) := by
  have hrun : (run smallCfg smallTrace).flushedSpans =
      [[1, 2, 3, 4], [3, 4, 5, 6]] := by
    simp only [run, smallTrace, List.foldl, step, processChunk,
      resampleChunk, smallCfg, Config.samplesThreshold,
      Config.overlapSamples, reseed, isSilent, sumSq, initState]
    norm_num
  exact span_overlap_continuity smallCfg smallTrace 0 [1, 2, 3, 4]
    [3, 4, 5, 6] (by rw [hrun]; simp) (by rw [hrun]; rfl)
    (by rw [hrun]; rfl) (by decide) (by decide)

/-! ## Resampler length arithmetic -/

lemma strideSlice_length (q : ℕ) (hq : 1 ≤ q) (xs : List ℚ) :
    (strideSlice q xs).length = (xs.length + q - 1) / q := by
  induction xs using strideSlice.induct q with
  | case1 =>
      simp only [strideSlice, List.length_nil, Nat.zero_add]
      rw [Nat.div_eq_of_lt (by omega)]
  | case2 x rest ih =>
      simp only [strideSlice, List.length_cons]
      rw [ih, List.length_drop]
      rcases Nat.lt_or_ge rest.length (q - 1) with hm | hm
      · rw [Nat.sub_eq_zero_of_le (Nat.le_of_lt hm)]
        rw [Nat.div_eq_of_lt (by omega)]
        rw [show rest.length + 1 + q - 1 = rest.length + q from by omega]
        rw [Nat.add_div_right _ (by omega)]
        rw [Nat.div_eq_of_lt (by omega)]
      · rw [show rest.length - (q - 1) + q - 1 = rest.length from by omega]
        rw [show rest.length + 1 + q - 1 = rest.length + q from by omega]
        rw [Nat.add_div_right _ (by omega)]

lemma resamplePoly_length (xs : List ℚ) (up down : ℕ) :
    (resamplePoly xs up down).length = (xs.length * up + down - 1) / down := by
  simp [resamplePoly]

/-- Ceiling division lands within one of the exact quotient. -/
lemma ceil_div_close (a b : ℕ) (hb : 0 < b) :
    |(((a + b - 1) / b : ℕ) : ℚ) - (a : ℚ) / (b : ℚ)| < 1 := by
  have hbq : (0 : ℚ) < (b : ℚ) := by exact_mod_cast hb
  set q : ℕ := (a + b - 1) / b with hqdef
  have hdm : b * q + (a + b - 1) % b = a + b - 1 := Nat.div_add_mod (a + b - 1) b
  have hmod : (a + b - 1) % b < b := Nat.mod_lt (a + b - 1) hb
  have h1 : b * q ≤ a + b - 1 := Nat.le.intro hdm
  have h2 : a + b - 1 < b * q + b := by
    conv_lhs => rw [← hdm]
    exact Nat.add_lt_add_left hmod _
  have h1z : (b : ℤ) * (q : ℤ) ≤ (a : ℤ) + (b : ℤ) - 1 := by
    zify [show (1:ℕ) ≤ a + b from by omega] at h1
    exact h1
  have h2z : (a : ℤ) + (b : ℤ) - 1 < (b : ℤ) * (q : ℤ) + b := by
    zify [show (1:ℕ) ≤ a + b from by omega] at h2
    exact h2
  have hbz : (1 : ℤ) ≤ (b : ℤ) := by exact_mod_cast hb
  have hz : |(b : ℤ) * (q : ℤ) - (a : ℤ)| < (b : ℤ) := by
    rw [abs_lt]
    constructor <;> linarith
  have key : ((q : ℚ) - (a : ℚ) / (b : ℚ)) =
      ((b : ℚ) * (q : ℚ) - (a : ℚ)) / (b : ℚ) := by
    rw [eq_div_iff (ne_of_gt hbq), sub_mul,
      div_mul_cancel₀ _ (ne_of_gt hbq)]
    ring
  rw [key, abs_div, abs_of_pos hbq, div_lt_one hbq]
  have hcast : ((b : ℚ) * (q : ℚ) - (a : ℚ)) =
      (((b : ℤ) * (q : ℤ) - (a : ℤ) : ℤ) : ℚ) := by
    push_cast
    ring
  rw [hcast, ← Int.cast_abs]
  exact_mod_cast hz

lemma resampleChunk_decimate_eq (cfg : Config) (chunk : List ℚ)
    (nativeRate : ℕ) (hne : nativeRate ≠ cfg.targetRate)
    (hg : decimateGuard cfg chunk nativeRate) :
    resampleChunk cfg chunk nativeRate =
      strideSlice
        (pythonRound ((nativeRate : ℚ) / (cfg.targetRate : ℚ))).toNat
        chunk := by
  unfold decimateGuard at hg
  simp only [resampleChunk]
  rw [if_neg hne, if_pos hg]

lemma resampleChunk_poly_eq (cfg : Config) (chunk : List ℚ)
    (nativeRate : ℕ) (hne : nativeRate ≠ cfg.targetRate)
    (hg : ¬ decimateGuard cfg chunk nativeRate)
    (hnum : 0 < chunk.length * cfg.targetRate / nativeRate) :
    resampleChunk cfg chunk nativeRate =
      resamplePoly chunk cfg.targetRate nativeRate := by
  unfold decimateGuard at hg
  simp only [resampleChunk]
  rw [if_neg hne, if_neg hg, if_pos hnum]

/-- C5 amended: chunks at the target rate pass through; the decimation
branch produces a length within one sample of `L / r`; the polyphase
branch, when its `num_samples > 0` guard holds, produces a length within
one sample of `L * Rt / Rn`; but when `int(L * Rt / Rn) = 0` the chunk
passes through unchanged (length `L`), which can be more than one sample
away from `L * Rt / Rn`. -/
theorem resample_length_behaviour (cfg : Config) (chunk : List ℚ)
    (nativeRate : ℕ) (ht : 0 < cfg.targetRate) (hn : 0 < nativeRate) :
    (nativeRate = cfg.targetRate →
      resampleChunk cfg chunk nativeRate = chunk) ∧
    (nativeRate ≠ cfg.targetRate → decimateGuard cfg chunk nativeRate →
      |((resampleChunk cfg chunk nativeRate).length : ℚ) -
        (chunk.length : ℚ) /
          ((pythonRound ((nativeRate : ℚ) / (cfg.targetRate : ℚ))).toNat : ℚ)| <
        1) ∧
    (nativeRate ≠ cfg.targetRate → ¬ decimateGuard cfg chunk nativeRate →
      0 < chunk.length * cfg.targetRate / nativeRate →
      |((resampleChunk cfg chunk nativeRate).length : ℚ) -
        ((chunk.length * cfg.targetRate : ℕ) : ℚ) / (nativeRate : ℚ)| < 1) ∧
    (nativeRate ≠ cfg.targetRate → ¬ decimateGuard cfg chunk nativeRate →
      chunk.length * cfg.targetRate / nativeRate = 0 →
      resampleChunk cfg chunk nativeRate = chunk) := by
  refine ⟨?_, ?_, ?_, ?_⟩
  · intro h
    simp [resampleChunk, h]
  · intro hne hg
    rw [resampleChunk_decimate_eq cfg chunk nativeRate hne hg]
    have hr : 0 <
        (pythonRound ((nativeRate : ℚ) / (cfg.targetRate : ℚ))).toNat := by
      have := hg.1
      omega
    rw [strideSlice_length _ hr chunk]
    exact ceil_div_close chunk.length _ hr
  · intro hne hg hnum
    rw [resampleChunk_poly_eq cfg chunk nativeRate hne hg hnum]
    rw [resamplePoly_length]
    exact ceil_div_close (chunk.length * cfg.targetRate) nativeRate hn
  · intro hne hg hzero
    unfold decimateGuard at hg
    simp only [resampleChunk]
    rw [if_neg hne, if_neg hg, if_neg (by omega)]

/-- C5 counterexample: a 2-sample chunk at 48000 Hz under the default
16000 Hz target misses the decimation guard (too short) and the polyphase
guard (`int(2 * 16000 / 48000) = 0`), so it passes through with length 2 —
not within one sample of `L * Rt / Rn = 2/3`. -/
theorem resample_length_counterexample :
    (48000 ≠ defaultConfig.targetRate) ∧
    ¬ decimateGuard defaultConfig [1, 1] 48000 ∧
    (resampleChunk defaultConfig [1, 1] 48000).length = 2 ∧
    ¬ |((resampleChunk defaultConfig [1, 1] 48000).length : ℚ) -
        (([1, 1] : List ℚ).length : ℚ) * (defaultConfig.targetRate : ℚ) /
          ((48000 : ℕ) : ℚ)| ≤ 1 := by
  have hg : ¬ decimateGuard defaultConfig [1, 1] 48000 := by
    unfold decimateGuard
    intro h
    have := h.2.2
    simp at this
  have heq : resampleChunk defaultConfig [1, 1] 48000 = [1, 1] := by
    unfold decimateGuard at hg
    simp only [resampleChunk]
    rw [if_neg (by decide), if_neg hg, if_neg (by decide)]
  refine ⟨by decide, hg, by rw [heq]; rfl, ?_⟩
  rw [heq]
  have hv : ((([1, 1] : List ℚ).length : ℚ)) = 2 := by norm_num
  simp only [hv, defaultConfig]
  intro habs
  rw [abs_of_pos (by norm_num)] at habs
  norm_num at habs

/-- C5 amended witness: a 300-sample chunk at 48000 Hz takes the 3:1
decimation branch; its output length is within one sample of `300 / 3`. -/
theorem resample_length_behaviour_witness :
    0 < defaultConfig.targetRate ∧ (48000 : ℕ) ≠ defaultConfig.targetRate ∧
    decimateGuard defaultConfig (List.replicate 300 1) 48000 ∧
    |((resampleChunk defaultConfig (List.replicate 300 1) 48000).length : ℚ) -
      ((List.replicate 300 (1 : ℚ)).length : ℚ) /
        ((pythonRound (((48000 : ℕ) : ℚ) /
          (defaultConfig.targetRate : ℚ))).toNat : ℚ)| < 1 := by
  have hpr : pythonRound (((48000 : ℕ) : ℚ) /
      (defaultConfig.targetRate : ℚ)) = 3 := by
    simp only [pythonRound, defaultConfig]
    norm_num
  have hg : decimateGuard defaultConfig (List.replicate 300 1) 48000 := by
    unfold decimateGuard
    rw [hpr]
    refine ⟨by norm_num, ?_, by rw [List.length_replicate]; norm_num⟩
    rw [show (((48000 : ℕ) : ℚ) / ((defaultConfig.targetRate : ℚ)) -
        ((3 : ℤ) : ℚ)) = 0 from by
      simp [defaultConfig]
      norm_num]
    norm_num
  exact ⟨by decide, by decide, hg,
    (resample_length_behaviour defaultConfig (List.replicate 300 1) 48000
      (by decide) (by decide)).2.1 (by decide) hg⟩

end AudioCapture
